import Mathlib

/-!
Verification of the DAE solver interface of
src/pybamm/solvers/c_solvers/idaklu/CasadiSolver.hpp against its
natural-language specification.

The repository fragment contains only the abstract class declaration
(pure virtual solve and Initialize, default constructor and destructor).
We embed that declaration as data, and model the behavioural contract of
solve, as the specification states it, as an explicit state machine over
caller-owned buffers.
-/

set_option autoImplicit false

namespace CasadiSolverSpec

/-! ### Embedding of the C++ declaration (from the source header) -/

/-- The scalar types appearing in the declaration: the SUNDIALS real type,
the C signed `int`, and `void`. -/
inductive CScalar where
  | realtype
  | cInt
  | void
  deriving DecidableEq, Repr

/-- The parameter-passing modes appearing in the declaration. -/
inductive CType where
  | constPtr (s : CScalar)
  | mutPtr (s : CScalar)
  | constVal (s : CScalar)
  | mutRef (s : CScalar)
  deriving DecidableEq, Repr

/-- A formal parameter of a method. -/
structure CParam where
  name : String
  type : CType
  deriving DecidableEq, Repr

/-- A method of a class. -/
structure CMethod where
  name : String
  ret : CScalar
  params : List CParam
  isVirtual : Bool
  isPureVirtual : Bool
  deriving DecidableEq, Repr

/-- A C++ class declaration, keeping the facts the claims are about. -/
structure ClassDecl where
  name : String
  hasDefaultCtor : Bool
  dtorIsVirtual : Bool
  dtorIsDefault : Bool
  methods : List CMethod
  deriving DecidableEq, Repr

/-- The declaration of `CasadiSolver::solve`, transcribed from
CasadiSolver.hpp lines 35-47. -/
def solveDecl : CMethod :=
  { name := "solve"
    ret := .void
    params := [
      ⟨"t", .constPtr .realtype⟩,
      ⟨"number_of_timesteps", .constVal .cInt⟩,
      ⟨"y0", .constPtr .realtype⟩,
      ⟨"yp0", .constPtr .realtype⟩,
      ⟨"inputs", .constPtr .realtype⟩,
      ⟨"length_of_return_vector", .constVal .cInt⟩,
      ⟨"y_return", .mutPtr .realtype⟩,
      ⟨"yS_return", .mutPtr .realtype⟩,
      ⟨"t_return", .mutPtr .realtype⟩,
      ⟨"t_i", .mutRef .cInt⟩,
      ⟨"retval", .mutRef .cInt⟩]
    isVirtual := true
    isPureVirtual := true }

/-- The declaration of `CasadiSolver::Initialize`, transcribed from
CasadiSolver.hpp lines 49-54. -/
def initMethodDecl : CMethod :=
  { name := "Initialize"
    ret := .void
    params := []
    isVirtual := true
    isPureVirtual := true }

/-- The `CasadiSolver` class declaration, transcribed from
CasadiSolver.hpp: default constructor, default (non-virtual) destructor,
and the two pure virtual methods. -/
def casadiSolverDecl : ClassDecl :=
  { name := "CasadiSolver"
    hasDefaultCtor := true
    dtorIsVirtual := false
    dtorIsDefault := true
    methods := [solveDecl, initMethodDecl] }

/-- Whether a parameter type is a const-qualified pointer. -/
def CType.isConstQualifiedPtr : CType → Bool
  | .constPtr _ => true
  | _ => false

/-- The underlying scalar of a parameter type. -/
def CType.scalar : CType → CScalar
  | .constPtr s => s
  | .mutPtr s => s
  | .constVal s => s
  | .mutRef s => s

/-- Whether a parameter carries floating-point data. -/
def CType.isFloating (c : CType) : Bool := c.scalar == .realtype

/-- Whether a parameter carries an index or count. -/
def CType.isIntegral (c : CType) : Bool := c.scalar == .cInt

/-- Modelled from the spec: the definition of the `realtype` alias lives in
the SUNDIALS headers pulled in by common.hpp, which are not part of this
fragment; the spec fixes it as the double-precision (64-bit) IEEE type,
and the C `int` is the 32-bit signed integer. -/
def CScalar.bitWidth : CScalar → ℕ
  | .realtype => 64
  | .cInt => 32
  | .void => 0

/-- Whether the scalar is a signed integer type (C `int` is signed). -/
def CScalar.isSigned : CScalar → Bool
  | .cInt => true
  | _ => false

/-- Modelled from the spec: C++ destruction semantics (not code of this
fragment): deleting a derived object through a pointer to a base class
invokes the derived destructor only when the base class destructor is
virtual; otherwise the behaviour is undefined and release of the derived
object resources is not guaranteed. -/
def derivedDtorRunsOnBaseDelete (base : ClassDecl) : Bool :=
  base.dtorIsVirtual

/-- Modelled from the spec: C++ const semantics (not code of this
fragment): a callee may write through a parameter only when it is a
non-const pointer or a mutable reference; writing through a
const-qualified access path is ill-formed. -/
def calleeMayWriteThrough : CType → Bool
  | .mutPtr _ => true
  | .mutRef _ => true
  | _ => false

/-- A caller-side buffer: an allocation length together with its
contents. The interface transmits only the pointer, never the length. -/
structure CallerBuffer where
  len : ℕ
  contents : ℕ → ℝ

/-- What `solve` receives for a buffer argument: the raw pointer, i.e.
the contents with no length information. -/
def passedAtInterface (cb : CallerBuffer) : ℕ → ℝ := cb.contents

/-! ### Behavioural model of solve

The concrete implementations of `CasadiSolver::solve` (the IDA-backed
integrators) are not part of this fragment; only the pure virtual
declaration is. The state machine below is modelled from the spec
(section 4.1): starting from the caller-supplied cursor, the solver
attempts to advance to each successive target time, writing the state,
the sensitivities and the achieved time and incrementing the cursor on
each success, and stopping with a nonzero status on the first failure. -/

/-- Modelled from the spec: the problem a call works on. `t` is the
requested time mesh; the product of `number_of_states` and the parameter
count determines the per-time-point strides of the output buffers, which
together must fit in the caller-declared `length_of_return_vector`. -/
structure Problem where
  number_of_timesteps : ℕ
  t : ℕ → ℝ
  number_of_states : ℕ
  number_of_parameters : ℕ
  length_of_return_vector : ℕ

/-- Per-time-point stride of `y_return`. -/
def Problem.strideY (p : Problem) : ℕ := p.number_of_states

/-- Per-time-point stride of `yS_return`: one state-sized block per input
parameter. -/
def Problem.strideS (p : Problem) : ℕ :=
  p.number_of_states * p.number_of_parameters

/-- Modelled from the spec: the ways the integrator can fail to reach the
next target time. -/
inductive StepFailure where
  | stepSizeUnderflow
  | nonlinearConvergence
  | maxInternalSteps
  | errorTest
  deriving DecidableEq, Repr

/-- Modelled from the spec: the failure classes a call can signal through
`retval`. -/
inductive SolveError where
  | inconsistentIC
  | bufferCapacity
  | step (f : StepFailure)
  deriving DecidableEq, Repr

/-- The nonzero status code of each failure class (zero is reserved for
success). -/
def SolveError.code : SolveError → ℤ
  | .step .maxInternalSteps => -1
  | .step .errorTest => -2
  | .step .nonlinearConvergence => -4
  | .step .stepSizeUnderflow => -5
  | .inconsistentIC => -14
  | .bufferCapacity => -100

/-- Modelled from the spec: the behaviour of the external numerical
kernel, abstracted: whether the supplied initial condition is consistent,
whether the integrator reaches each target index (and if not, how it
fails), and the state and sensitivity trajectories it produces, as
functions of the achieved time. -/
structure Integrator where
  consistentIC : Bool
  stepTo : ℕ → Option StepFailure
  yOf : ℝ → ℕ → ℝ
  ySOf : ℝ → ℕ → ℝ

/-- The caller-owned output buffers, addressed by flat scalar index. -/
structure Buffers where
  y_return : ℕ → ℝ
  yS_return : ℕ → ℝ
  t_return : ℕ → ℝ

/-- Modelled from the spec: writing one successfully reached time point
`i` into the output buffers: the state block, the sensitivity block and
the achieved time. -/
def writeStep (p : Problem) (g : Integrator) (i : ℕ) (b : Buffers) :
    Buffers where
  y_return := fun k =>
    if i * p.strideY ≤ k ∧ k < i * p.strideY + p.strideY then
      g.yOf (p.t i) (k - i * p.strideY)
    else b.y_return k
  yS_return := fun k =>
    if i * p.strideS ≤ k ∧ k < i * p.strideS + p.strideS then
      g.ySOf (p.t i) (k - i * p.strideS)
    else b.yS_return k
  t_return := fun k => if k = i then p.t i else b.t_return k

/-- The observable outcome of a call: the final contents of the output
buffers and the two out-parameters. -/
structure SolveOut where
  bufs : Buffers
  t_i : ℕ
  retval : ℤ

/-- Modelled from the spec: the advancing loop. `n` is the number of
target times still to reach, `i` the cursor. Each success writes the
time point and increments the cursor; the first failure stops the loop
with the corresponding nonzero status; reaching every target yields
status zero. -/
def solveFrom (p : Problem) (g : Integrator) :
    ℕ → ℕ → Buffers → SolveOut
  | 0, i, b => ⟨b, i, 0⟩
  | n + 1, i, b =>
    match g.stepTo i with
    | some f => ⟨b, i, (SolveError.step f).code⟩
    | none => solveFrom p g n (i + 1) (writeStep p g i b)

/-- Modelled from the spec: one call to `solve`. An inconsistent initial
condition yields an error status without advancing; a per-time-point
capacity violation likewise; otherwise the solver advances from the
caller-supplied cursor towards `number_of_timesteps`. The function is
total: every outcome is reported through the returned out-parameters,
never by an exception. -/
def solve (p : Problem) (g : Integrator) (b : Buffers) (t_i0 : ℕ) :
    SolveOut :=
  if g.consistentIC = false then
    ⟨b, t_i0, SolveError.inconsistentIC.code⟩
  else if p.length_of_return_vector < p.strideY + p.strideS then
    ⟨b, t_i0, SolveError.bufferCapacity.code⟩
  else
    solveFrom p g (p.number_of_timesteps - t_i0) t_i0 b

/-- The consistency invariant of the spec: every index below `n` of the
output buffers holds the requested time and the state the integrator
associates with exactly that time. -/
def consistentUpTo (p : Problem) (g : Integrator) (b : Buffers) (n : ℕ) :
    Prop :=
  ∀ i < n, b.t_return i = p.t i ∧
    ∀ j < p.strideY, b.y_return (i * p.strideY + j) = g.yOf (p.t i) j

/-! ### Lemmas about the advancing loop -/

theorem solveFrom_zero (p : Problem) (g : Integrator) (i : ℕ) (b : Buffers) :
    solveFrom p g 0 i b = ⟨b, i, 0⟩ := rfl

theorem solveFrom_succ_some (p : Problem) (g : Integrator) (n i : ℕ)
    (b : Buffers) (f : StepFailure) (h : g.stepTo i = some f) :
    solveFrom p g (n + 1) i b = ⟨b, i, (SolveError.step f).code⟩ := by
  simp [solveFrom, h]

theorem solveFrom_succ_none (p : Problem) (g : Integrator) (n i : ℕ)
    (b : Buffers) (h : g.stepTo i = none) :
    solveFrom p g (n + 1) i b = solveFrom p g n (i + 1) (writeStep p g i b) := by
  simp [solveFrom, h]

theorem solveFrom_t_i_bounds (p : Problem) (g : Integrator) (n : ℕ) :
    ∀ (i : ℕ) (b : Buffers),
      i ≤ (solveFrom p g n i b).t_i ∧ (solveFrom p g n i b).t_i ≤ i + n := by
  induction n with
  | zero =>
    intro i b
    rw [solveFrom_zero]
    exact ⟨le_refl i, le_refl i⟩
  | succ n ih =>
    intro i b
    cases hg : g.stepTo i with
    | some f =>
      rw [solveFrom_succ_some p g n i b f hg]
      exact ⟨le_refl i, Nat.le_add_right i (n + 1)⟩
    | none =>
      rw [solveFrom_succ_none p g n i b hg]
      have h := ih (i + 1) (writeStep p g i b)
      omega

theorem solveFrom_retval_zero (p : Problem) (g : Integrator) (n : ℕ) :
    ∀ (i : ℕ) (b : Buffers), (solveFrom p g n i b).retval = 0 →
      (solveFrom p g n i b).t_i = i + n := by
  induction n with
  | zero => intro i b _; rfl
  | succ n ih =>
    intro i b h
    cases hg : g.stepTo i with
    | some f =>
      rw [solveFrom_succ_some p g n i b f hg] at h
      cases f <;> simp [SolveError.code] at h
    | none =>
      rw [solveFrom_succ_none p g n i b hg] at h ⊢
      have := ih (i + 1) (writeStep p g i b) h
      omega

theorem solveFrom_retval_classes (p : Problem) (g : Integrator) (n : ℕ) :
    ∀ (i : ℕ) (b : Buffers), (solveFrom p g n i b).retval = 0 ∨
      ∃ f : StepFailure,
        (solveFrom p g n i b).retval = (SolveError.step f).code := by
  induction n with
  | zero => intro i b; left; rw [solveFrom_zero]
  | succ n ih =>
    intro i b
    cases hg : g.stepTo i with
    | some f => right; exact ⟨f, by rw [solveFrom_succ_some p g n i b f hg]⟩
    | none =>
      rw [solveFrom_succ_none p g n i b hg]
      exact ih (i + 1) (writeStep p g i b)

theorem solveFrom_frame_low (p : Problem) (g : Integrator) (n : ℕ) :
    ∀ (i : ℕ) (b : Buffers),
      (∀ k, k < i * p.strideY →
        (solveFrom p g n i b).bufs.y_return k = b.y_return k) ∧
      (∀ k, k < i * p.strideS →
        (solveFrom p g n i b).bufs.yS_return k = b.yS_return k) ∧
      (∀ k, k < i →
        (solveFrom p g n i b).bufs.t_return k = b.t_return k) := by
  induction n with
  | zero => intro i b; rw [solveFrom_zero]; exact ⟨fun _ _ => rfl, fun _ _ => rfl, fun _ _ => rfl⟩
  | succ n ih =>
    intro i b
    cases hg : g.stepTo i with
    | some f =>
      rw [solveFrom_succ_some p g n i b f hg]
      exact ⟨fun _ _ => rfl, fun _ _ => rfl, fun _ _ => rfl⟩
    | none =>
      rw [solveFrom_succ_none p g n i b hg]
      obtain ⟨hy, hs, ht⟩ := ih (i + 1) (writeStep p g i b)
      refine ⟨fun k hk => ?_, fun k hk => ?_, fun k hk => ?_⟩
      · have hle : i * p.strideY ≤ (i + 1) * p.strideY :=
          Nat.mul_le_mul_right _ (Nat.le_succ i)
        rw [hy k (lt_of_lt_of_le hk hle)]
        simp only [writeStep]
        rw [if_neg (by omega)]
      · have hle : i * p.strideS ≤ (i + 1) * p.strideS :=
          Nat.mul_le_mul_right _ (Nat.le_succ i)
        rw [hs k (lt_of_lt_of_le hk hle)]
        simp only [writeStep]
        rw [if_neg (by omega)]
      · rw [ht k (by omega)]
        simp only [writeStep]
        rw [if_neg (by omega)]

theorem solveFrom_frame_high (p : Problem) (g : Integrator) (n : ℕ) :
    ∀ (i : ℕ) (b : Buffers),
      (∀ k, (solveFrom p g n i b).t_i * p.strideY ≤ k →
        (solveFrom p g n i b).bufs.y_return k = b.y_return k) ∧
      (∀ k, (solveFrom p g n i b).t_i * p.strideS ≤ k →
        (solveFrom p g n i b).bufs.yS_return k = b.yS_return k) ∧
      (∀ k, (solveFrom p g n i b).t_i ≤ k →
        (solveFrom p g n i b).bufs.t_return k = b.t_return k) := by
  induction n with
  | zero => intro i b; rw [solveFrom_zero]; exact ⟨fun _ _ => rfl, fun _ _ => rfl, fun _ _ => rfl⟩
  | succ n ih =>
    intro i b
    cases hg : g.stepTo i with
    | some f =>
      rw [solveFrom_succ_some p g n i b f hg]
      exact ⟨fun _ _ => rfl, fun _ _ => rfl, fun _ _ => rfl⟩
    | none =>
      rw [solveFrom_succ_none p g n i b hg]
      obtain ⟨hy, hs, ht⟩ := ih (i + 1) (writeStep p g i b)
      have hti := (solveFrom_t_i_bounds p g n (i + 1) (writeStep p g i b)).1
      refine ⟨fun k hk => ?_, fun k hk => ?_, fun k hk => ?_⟩
      · have h1 : (i + 1) * p.strideY ≤
            (solveFrom p g n (i + 1) (writeStep p g i b)).t_i * p.strideY :=
          Nat.mul_le_mul_right _ hti
        have h2 : (i + 1) * p.strideY = i * p.strideY + p.strideY :=
          Nat.succ_mul i p.strideY
        rw [hy k hk]
        simp only [writeStep]
        rw [if_neg (by omega)]
      · have h1 : (i + 1) * p.strideS ≤
            (solveFrom p g n (i + 1) (writeStep p g i b)).t_i * p.strideS :=
          Nat.mul_le_mul_right _ hti
        have h2 : (i + 1) * p.strideS = i * p.strideS + p.strideS :=
          Nat.succ_mul i p.strideS
        rw [hs k hk]
        simp only [writeStep]
        rw [if_neg (by omega)]
      · rw [ht k (by omega)]
        simp only [writeStep]
        rw [if_neg (by omega)]

theorem solveFrom_writes (p : Problem) (g : Integrator) (n : ℕ) :
    ∀ (i : ℕ) (b : Buffers) (m : ℕ), i ≤ m → m < (solveFrom p g n i b).t_i →
      (solveFrom p g n i b).bufs.t_return m = p.t m ∧
      (∀ j, j < p.strideY →
        (solveFrom p g n i b).bufs.y_return (m * p.strideY + j) =
          g.yOf (p.t m) j) ∧
      (∀ j, j < p.strideS →
        (solveFrom p g n i b).bufs.yS_return (m * p.strideS + j) =
          g.ySOf (p.t m) j) := by
  induction n with
  | zero =>
    intro i b m h1 h2
    rw [solveFrom_zero] at h2
    exact absurd h2 (Nat.not_lt.mpr h1)
  | succ n ih =>
    intro i b m h1 h2
    cases hg : g.stepTo i with
    | some f =>
      rw [solveFrom_succ_some p g n i b f hg] at h2
      exact absurd h2 (Nat.not_lt.mpr h1)
    | none =>
      rw [solveFrom_succ_none p g n i b hg] at h2 ⊢
      rcases Nat.eq_or_lt_of_le h1 with he | hlt
      · subst he
        obtain ⟨hy, hs, ht⟩ := solveFrom_frame_low p g n (i + 1) (writeStep p g i b)
        have hmulY : (i + 1) * p.strideY = i * p.strideY + p.strideY :=
          Nat.succ_mul i p.strideY
        have hmulS : (i + 1) * p.strideS = i * p.strideS + p.strideS :=
          Nat.succ_mul i p.strideS
        refine ⟨?_, fun j hj => ?_, fun j hj => ?_⟩
        · rw [ht i (by omega)]
          simp [writeStep]
        · rw [hy (i * p.strideY + j) (by omega)]
          dsimp only [writeStep]
          rw [if_pos (by omega), Nat.add_sub_cancel_left]
        · rw [hs (i * p.strideS + j) (by omega)]
          dsimp only [writeStep]
          rw [if_pos (by omega), Nat.add_sub_cancel_left]
      · exact ih (i + 1) (writeStep p g i b) m hlt h2

theorem solveFrom_first_failure (p : Problem) (g : Integrator) (n : ℕ) :
    ∀ (i : ℕ) (b : Buffers) (k : ℕ) (f : StepFailure),
      i ≤ k → k < i + n → g.stepTo k = some f →
      (∀ m, i ≤ m → m < k → g.stepTo m = none) →
      (solveFrom p g n i b).t_i = k ∧
      (solveFrom p g n i b).retval = (SolveError.step f).code := by
  induction n with
  | zero =>
    intro i b k f h1 h2 _ _
    exact absurd h2 (by omega)
  | succ n ih =>
    intro i b k f h1 h2 hf hok
    rcases Nat.eq_or_lt_of_le h1 with he | hlt
    · subst he
      rw [solveFrom_succ_some p g n i b f hf]
      exact ⟨rfl, rfl⟩
    · have hi : g.stepTo i = none := hok i (le_refl i) hlt
      rw [solveFrom_succ_none p g n i b hi]
      exact ih (i + 1) (writeStep p g i b) k f hlt (by omega) hf
        (fun m hm1 hm2 => hok m (by omega) hm2)

/-! ### Unfolding lemmas for one call -/

theorem solve_inconsistent (p : Problem) (g : Integrator) (b : Buffers)
    (t_i0 : ℕ) (h : g.consistentIC = false) :
    solve p g b t_i0 = ⟨b, t_i0, SolveError.inconsistentIC.code⟩ := by
  unfold solve
  rw [if_pos h]

theorem solve_capacity (p : Problem) (g : Integrator) (b : Buffers)
    (t_i0 : ℕ) (h1 : g.consistentIC = true)
    (h2 : p.length_of_return_vector < p.strideY + p.strideS) :
    solve p g b t_i0 = ⟨b, t_i0, SolveError.bufferCapacity.code⟩ := by
  unfold solve
  rw [if_neg (by simp [h1]), if_pos h2]

theorem solve_run (p : Problem) (g : Integrator) (b : Buffers)
    (t_i0 : ℕ) (h1 : g.consistentIC = true)
    (h2 : p.strideY + p.strideS ≤ p.length_of_return_vector) :
    solve p g b t_i0 = solveFrom p g (p.number_of_timesteps - t_i0) t_i0 b := by
  unfold solve
  rw [if_neg (by simp [h1]), if_neg (by omega)]

theorem consistentIC_true_of_not_false (g : Integrator)
    (h : ¬ g.consistentIC = false) : g.consistentIC = true := by
  cases hgc : g.consistentIC with
  | false => exact absurd hgc h
  | true => rfl

/-! ### Concrete instances used to exercise the theorems -/

/-- A concrete problem: a three-point mesh, one state, one sensitivity
parameter, capacity two scalars per time point. -/
def pEx : Problem :=
  { number_of_timesteps := 3
    t := fun i => (i : ℝ)
    number_of_states := 1
    number_of_parameters := 1
    length_of_return_vector := 2 }

/-- A concrete integrator that reaches every target time. -/
def gOk : Integrator :=
  { consistentIC := true
    stepTo := fun _ => none
    yOf := fun τ _ => τ
    ySOf := fun _ _ => 0 }

/-- A concrete integrator that exceeds its internal step budget on the
way to target index 2. -/
def gFail : Integrator :=
  { consistentIC := true
    stepTo := fun i => if i = 2 then some .maxInternalSteps else none
    yOf := fun τ _ => τ
    ySOf := fun _ _ => 0 }

/-- A concrete integrator handed an inconsistent initial condition. -/
def gBadIC : Integrator :=
  { consistentIC := false
    stepTo := fun _ => none
    yOf := fun _ _ => 0
    ySOf := fun _ _ => 0 }

/-- Zero-initialised output buffers. -/
def bEx : Buffers :=
  { y_return := fun _ => 0
    yS_return := fun _ => 0
    t_return := fun _ => 0 }

/-! ### The claims -/

/-- C1: for every call to solve() that succeeds (status zero), the
out-parameter t_i equals number_of_timesteps and retval equals 0 upon
return. -/
theorem C1_success_reaches_all_timesteps (p : Problem) (g : Integrator)
    (b : Buffers) (t_i0 : ℕ) (h0 : t_i0 ≤ p.number_of_timesteps)
    (hs : (solve p g b t_i0).retval = 0) :
    (solve p g b t_i0).t_i = p.number_of_timesteps ∧
    (solve p g b t_i0).retval = 0 := by
  refine ⟨?_, hs⟩
  by_cases h1 : g.consistentIC = false
  · have hv : (solve p g b t_i0).retval = SolveError.inconsistentIC.code := by
      rw [solve_inconsistent p g b t_i0 h1]
    rw [hv] at hs
    exact absurd hs (by decide)
  · have h1t := consistentIC_true_of_not_false g h1
    by_cases h2 : p.length_of_return_vector < p.strideY + p.strideS
    · have hv : (solve p g b t_i0).retval = SolveError.bufferCapacity.code := by
        rw [solve_capacity p g b t_i0 h1t h2]
      rw [hv] at hs
      exact absurd hs (by decide)
    · rw [solve_run p g b t_i0 h1t (by omega)] at hs ⊢
      have h3 := solveFrom_retval_zero p g (p.number_of_timesteps - t_i0) t_i0 b hs
      omega

/-- Witness for C1: the three-point decay scenario succeeds and reaches
all three requested times. -/
theorem C1_witness :
    (solve pEx gOk bEx 0).t_i = pEx.number_of_timesteps ∧
    (solve pEx gOk bEx 0).retval = 0 :=
  C1_success_reaches_all_timesteps pEx gOk bEx 0 (by decide) (by decide)

/-- C2: for every call to solve(), success or failure, every index below
the returned t_i of the output buffers holds the i-th requested time in
t_return and the state the integrator associates with exactly that time
in y_return, provided the caller-supplied resume prefix already
satisfied this (vacuous for the typical entry cursor 0). -/
theorem C2_output_prefix_consistent (p : Problem) (g : Integrator)
    (b : Buffers) (t_i0 : ℕ) (hb : consistentUpTo p g b t_i0) :
    consistentUpTo p g (solve p g b t_i0).bufs (solve p g b t_i0).t_i := by
  by_cases h1 : g.consistentIC = false
  · rw [solve_inconsistent p g b t_i0 h1]
    exact hb
  · have h1t := consistentIC_true_of_not_false g h1
    by_cases h2 : p.length_of_return_vector < p.strideY + p.strideS
    · rw [solve_capacity p g b t_i0 h1t h2]
      exact hb
    · rw [solve_run p g b t_i0 h1t (by omega)]
      intro i hi
      by_cases hcase : i < t_i0
      · obtain ⟨hy, _, ht⟩ :=
          solveFrom_frame_low p g (p.number_of_timesteps - t_i0) t_i0 b
        obtain ⟨hbt, hby⟩ := hb i hcase
        refine ⟨by rw [ht i hcase]; exact hbt, fun j hj => ?_⟩
        have hmul : (i + 1) * p.strideY = i * p.strideY + p.strideY :=
          Nat.succ_mul i p.strideY
        have hle : (i + 1) * p.strideY ≤ t_i0 * p.strideY :=
          Nat.mul_le_mul_right _ (by omega)
        rw [hy (i * p.strideY + j) (by omega)]
        exact hby j hj
      · have hw := solveFrom_writes p g (p.number_of_timesteps - t_i0)
          t_i0 b i (by omega) hi
        exact ⟨hw.1, hw.2.1⟩

/-- Witness for C2: in the successful three-point scenario, starting
from cursor 0, the written prefix is consistent. -/
theorem C2_witness :
    consistentUpTo pEx gOk (solve pEx gOk bEx 0).bufs
      (solve pEx gOk bEx 0).t_i :=
  C2_output_prefix_consistent pEx gOk bEx 0
    (fun i hi => absurd hi (Nat.not_lt_zero i))

/-- C3: when the integrator cannot reach the next target time, solve()
stops advancing, leaves t_i at the last successfully reached index, sets
retval to a nonzero failure code, and every output entry written at
indices below t_i — achieved time, state block and sensitivity block —
stays valid, while entries below the entry cursor in all three output
buffers stay unchanged. -/
theorem C3_failure_stops_and_preserves (p : Problem) (g : Integrator)
    (b : Buffers) (t_i0 k : ℕ) (f : StepFailure)
    (hic : g.consistentIC = true)
    (hcap : p.strideY + p.strideS ≤ p.length_of_return_vector)
    (hk0 : t_i0 ≤ k) (hk : k < p.number_of_timesteps)
    (hfail : g.stepTo k = some f)
    (hok : ∀ m, t_i0 ≤ m → m < k → g.stepTo m = none) :
    (solve p g b t_i0).t_i = k ∧
    (solve p g b t_i0).retval ≠ 0 ∧
    (∀ m, t_i0 ≤ m → m < k →
      (solve p g b t_i0).bufs.t_return m = p.t m ∧
      (∀ j, j < p.strideY →
        (solve p g b t_i0).bufs.y_return (m * p.strideY + j) =
          g.yOf (p.t m) j) ∧
      ∀ j, j < p.strideS →
        (solve p g b t_i0).bufs.yS_return (m * p.strideS + j) =
          g.ySOf (p.t m) j) ∧
    (∀ k2, k2 < t_i0 * p.strideY →
      (solve p g b t_i0).bufs.y_return k2 = b.y_return k2) ∧
    (∀ k2, k2 < t_i0 * p.strideS →
      (solve p g b t_i0).bufs.yS_return k2 = b.yS_return k2) ∧
    (∀ m, m < t_i0 →
      (solve p g b t_i0).bufs.t_return m = b.t_return m) := by
  rw [solve_run p g b t_i0 hic hcap]
  obtain ⟨hti, hrv⟩ := solveFrom_first_failure p g
    (p.number_of_timesteps - t_i0) t_i0 b k f hk0 (by omega) hfail hok
  refine ⟨hti, ?_, fun m hm1 hm2 => ?_, ?_, ?_, ?_⟩
  · rw [hrv]
    cases f <;> decide
  · exact solveFrom_writes p g (p.number_of_timesteps - t_i0)
      t_i0 b m hm1 (by omega)
  · exact fun k2 hk2 =>
      (solveFrom_frame_low p g (p.number_of_timesteps - t_i0) t_i0 b).1 k2 hk2
  · exact fun k2 hk2 =>
      (solveFrom_frame_low p g (p.number_of_timesteps - t_i0) t_i0 b).2.1 k2 hk2
  · exact fun m hm =>
      (solveFrom_frame_low p g (p.number_of_timesteps - t_i0) t_i0 b).2.2 m hm

/-- Witness for C3: the forced failure at target index 2 of the
three-point mesh stops the call at t_i = 2 with a nonzero status. -/
theorem C3_witness :
    (solve pEx gFail bEx 0).t_i = 2 ∧
    (solve pEx gFail bEx 0).retval ≠ 0 :=
  have h := C3_failure_stops_and_preserves pEx gFail bEx 0 2
    .maxInternalSteps rfl (by decide) (by decide) (by decide) (by decide)
    (fun m _ hm => if_neg (by omega))
  ⟨h.1, h.2.1⟩

/-- C4: the cursor t_i never decreases across a call and never exceeds
number_of_timesteps (given the spec invariant that it does not already
exceed it on entry). -/
theorem C4_t_i_monotone_bounded (p : Problem) (g : Integrator)
    (b : Buffers) (t_i0 : ℕ) (h0 : t_i0 ≤ p.number_of_timesteps) :
    t_i0 ≤ (solve p g b t_i0).t_i ∧
    (solve p g b t_i0).t_i ≤ p.number_of_timesteps := by
  by_cases h1 : g.consistentIC = false
  · rw [solve_inconsistent p g b t_i0 h1]
    exact ⟨le_refl t_i0, h0⟩
  · have h1t := consistentIC_true_of_not_false g h1
    by_cases h2 : p.length_of_return_vector < p.strideY + p.strideS
    · rw [solve_capacity p g b t_i0 h1t h2]
      exact ⟨le_refl t_i0, h0⟩
    · rw [solve_run p g b t_i0 h1t (by omega)]
      have h3 := solveFrom_t_i_bounds p g (p.number_of_timesteps - t_i0) t_i0 b
      omega

/-- Witness for C4: in the forced-failure scenario the cursor moves from
0 to at most the mesh length. -/
theorem C4_witness :
    0 ≤ (solve pEx gFail bEx 0).t_i ∧
    (solve pEx gFail bEx 0).t_i ≤ pEx.number_of_timesteps :=
  C4_t_i_monotone_bounded pEx gFail bEx 0 (by decide)

/-- C5: writing stops exactly at t_i entries: every index of y_return,
yS_return and t_return at or beyond the region of the returned t_i keeps
its caller-supplied contents, and whenever the call wrote anything the
per-time-point strides fit in the declared length_of_return_vector. -/
theorem C5_no_overrun (p : Problem) (g : Integrator) (b : Buffers)
    (t_i0 : ℕ) :
    (∀ k, (solve p g b t_i0).t_i * p.strideY ≤ k →
      (solve p g b t_i0).bufs.y_return k = b.y_return k) ∧
    (∀ k, (solve p g b t_i0).t_i * p.strideS ≤ k →
      (solve p g b t_i0).bufs.yS_return k = b.yS_return k) ∧
    (∀ k, (solve p g b t_i0).t_i ≤ k →
      (solve p g b t_i0).bufs.t_return k = b.t_return k) ∧
    (t_i0 < (solve p g b t_i0).t_i →
      p.strideY + p.strideS ≤ p.length_of_return_vector) := by
  by_cases h1 : g.consistentIC = false
  · rw [solve_inconsistent p g b t_i0 h1]
    exact ⟨fun _ _ => rfl, fun _ _ => rfl, fun _ _ => rfl,
      fun h => absurd h (lt_irrefl t_i0)⟩
  · have h1t := consistentIC_true_of_not_false g h1
    by_cases h2 : p.length_of_return_vector < p.strideY + p.strideS
    · rw [solve_capacity p g b t_i0 h1t h2]
      exact ⟨fun _ _ => rfl, fun _ _ => rfl, fun _ _ => rfl,
        fun h => absurd h (lt_irrefl t_i0)⟩
    · rw [solve_run p g b t_i0 h1t (by omega)]
      obtain ⟨hy, hs, ht⟩ :=
        solveFrom_frame_high p g (p.number_of_timesteps - t_i0) t_i0 b
      exact ⟨hy, hs, ht, fun _ => by omega⟩

/-- Witness for C5: in the successful three-point scenario nothing at or
beyond the t_i-th time-point entry of t_return is modified. -/
theorem C5_witness :
    (solve pEx gOk bEx 0).bufs.t_return 7 = bEx.t_return 7 :=
  (C5_no_overrun pEx gOk bEx 0).2.2.1 7 (by decide)

/-- C6: termination status is communicated exclusively through retval:
the declared solve returns void, zero means success, every failure class
(including an inconsistent initial condition, which is reported rather
than thrown) has its own distinct nonzero code, and every call yields
either zero or one of those codes. -/
theorem C6_status_only_through_retval :
    solveDecl.ret = CScalar.void ∧
    solveDecl ∈ casadiSolverDecl.methods ∧
    (∀ e : SolveError, e.code ≠ 0) ∧
    (∀ e1 e2 : SolveError, e1.code = e2.code → e1 = e2) ∧
    (∀ (p : Problem) (g : Integrator) (b : Buffers) (t_i0 : ℕ),
      g.consistentIC = false →
        (solve p g b t_i0).retval = SolveError.inconsistentIC.code) ∧
    (∀ (p : Problem) (g : Integrator) (b : Buffers) (t_i0 : ℕ),
      (solve p g b t_i0).retval = 0 ∨
        ∃ e : SolveError, (solve p g b t_i0).retval = e.code) := by
  refine ⟨rfl, List.mem_cons_self _ _, ?_, ?_, ?_, ?_⟩
  · intro e
    rcases e with _ | _ | f
    · decide
    · decide
    · cases f <;> decide
  · intro e1 e2
    rcases e1 with _ | _ | f1 <;> rcases e2 with _ | _ | f2
    all_goals first
      | (cases f1 <;> cases f2 <;> decide)
      | (cases f1 <;> decide)
      | (cases f2 <;> decide)
      | decide
  · intro p g b t_i0 h
    rw [solve_inconsistent p g b t_i0 h]
  · intro p g b t_i0
    by_cases h1 : g.consistentIC = false
    · exact Or.inr ⟨.inconsistentIC, by rw [solve_inconsistent p g b t_i0 h1]⟩
    · have h1t := consistentIC_true_of_not_false g h1
      by_cases h2 : p.length_of_return_vector < p.strideY + p.strideS
      · exact Or.inr ⟨.bufferCapacity, by rw [solve_capacity p g b t_i0 h1t h2]⟩
      · rw [solve_run p g b t_i0 h1t (by omega)]
        rcases solveFrom_retval_classes p g (p.number_of_timesteps - t_i0)
          t_i0 b with h | ⟨f, hf⟩
        · exact Or.inl h
        · exact Or.inr ⟨.step f, hf⟩

/-- Witness for C6: the inconsistent-initial-condition scenario reports
the dedicated nonzero code through retval. -/
theorem C6_witness :
    (solve pEx gBadIC bEx 0).retval = SolveError.inconsistentIC.code :=
  C6_status_only_through_retval.2.2.2.2.1 pEx gBadIC bEx 0 rfl

/-- C7: the caller-owned input buffers t, y0, yp0 and inputs are exactly
the const-qualified pointer parameters of solve, and the only parameters
a callee may write through are the three output buffers and the two
out-parameters. -/
theorem C7_input_buffers_read_only :
    ((solveDecl.params.filter fun q => q.type.isConstQualifiedPtr).map
        fun q => q.name) = ["t", "y0", "yp0", "inputs"] ∧
    ((solveDecl.params.filter fun q => calleeMayWriteThrough q.type).map
        fun q => q.name) =
      ["y_return", "yS_return", "t_return", "t_i", "retval"] := by
  constructor <;> rfl

/-- C8: every floating-point value crossing the solve interface uses the
one realtype scalar (double-precision, 64-bit), and every index or count
uses the signed C int. -/
theorem C8_numeric_types_consistent :
    ((solveDecl.params.filter fun q => q.type.isFloating).map
        fun q => q.name) =
      ["t", "y0", "yp0", "inputs", "y_return", "yS_return", "t_return"] ∧
    ((solveDecl.params.filter fun q => q.type.isFloating).all
        fun q => q.type.scalar == .realtype) = true ∧
    ((solveDecl.params.filter fun q => q.type.isIntegral).map
        fun q => q.name) =
      ["number_of_timesteps", "length_of_return_vector", "t_i", "retval"] ∧
    ((solveDecl.params.filter fun q => q.type.isIntegral).all
        fun q => q.type.scalar.isSigned) = true ∧
    (solveDecl.params.all
        fun q => q.type.isFloating || q.type.isIntegral) = true ∧
    CScalar.realtype.bitWidth = 64 := by
  refine ⟨rfl, rfl, rfl, rfl, rfl, rfl⟩

/-- C9: the CasadiSolver base class has a non-virtual default destructor
while solve and Initialize are pure virtual, so under C++ destruction
semantics the derived destructor is not invoked when a concrete solver
is destroyed through the base interface. -/
theorem C9_nonvirtual_dtor_with_pure_virtuals :
    casadiSolverDecl.dtorIsVirtual = false ∧
    casadiSolverDecl.dtorIsDefault = true ∧
    solveDecl.isVirtual = true ∧ solveDecl.isPureVirtual = true ∧
    initMethodDecl.isVirtual = true ∧ initMethodDecl.isPureVirtual = true ∧
    solveDecl ∈ casadiSolverDecl.methods ∧
    initMethodDecl ∈ casadiSolverDecl.methods ∧
    derivedDtorRunsOnBaseDelete casadiSolverDecl = false := by
  refine ⟨rfl, rfl, rfl, rfl, rfl, rfl, ?_, ?_, rfl⟩
  · exact List.mem_cons_self _ _
  · exact List.mem_cons_of_mem _ (List.mem_cons_self _ _)

/-- C10: the solve signature transmits no length for y0, yp0 or inputs
(the only by-value integer parameters are the mesh length and the single
shared output capacity), and the interface receives a buffer as a bare
pointer, so two caller allocations of different lengths are
indistinguishable at the interface. -/
theorem C10_input_lengths_not_transmitted :
    ((solveDecl.params.filter fun q => q.type == .constVal .cInt).map
        fun q => q.name) =
      ["number_of_timesteps", "length_of_return_vector"] ∧
    ((solveDecl.params.filter fun q => q.type.isIntegral).map
        fun q => q.name) =
      ["number_of_timesteps", "length_of_return_vector", "t_i", "retval"] ∧
    ∃ cb1 cb2 : CallerBuffer, cb1.len ≠ cb2.len ∧
      passedAtInterface cb1 = passedAtInterface cb2 := by
  refine ⟨rfl, rfl, ⟨2, fun _ => 0⟩, ⟨3, fun _ => 0⟩, by decide, rfl⟩

end CasadiSolverSpec
